import Mathlib

/-!
Verification of the rsvp.pizza server core (internal/pizza/server.go):
the generic TTL cache and its three instances, the membership-check
policy `IsFriendAllowed`, the cached upcoming-Fridays lookup, and the
calendar credential watch loop.

Go strings are modelled as lists of byte values (`List Nat`) where the
byte content matters (the decimal cache key of the Fridays cache) and as
Lean `String` where keys are opaque (friend emails).  Go `time.Duration`
values are modelled as natural numbers of nanoseconds, matching Go's
representation of `time.Duration` as an int64 nanosecond count.
Wall-clock instants are naturals (nanoseconds since an arbitrary epoch);
Fauna timestamps are integers.
-/

/-- Error values returned by the remote (Fauna) calls and by the cache:
a failed query, a failed result decode, a failed `strconv.ParseInt`, or a
cache miss in a loader-less cache. -/
inductive Err where
  | query (msg : String)
  | decode (msg : String)
  | parse
  | notFound
deriving DecidableEq

/-- Modelled from the spec: the repository's generic cache type
(`Cache[T]`, referenced from server.go but whose defining file is not
part of the sources given).  A cache entry pairs a value with its
absolute expiration instant. -/
structure CacheEntry (V : Type) where
  value : V
  expiresAt : Nat
deriving DecidableEq

/-- Modelled from the spec: `TTLCache<K,V>` holds a fixed TTL, an
optional loader invoked on miss/staleness, and the entry map (an
association list: lookups take the most recently stored binding). -/
structure Cache (K V : Type) where
  ttl : Nat
  loader : Option (K → Except Err V)
  entries : List (K × CacheEntry V)

/-- Modelled from the spec: cache construction from a TTL and an
optional loader, starting with no entries. -/
def NewCache {K V : Type} (ttl : Nat) (loader : Option (K → Except Err V)) : Cache K V :=
  { ttl := ttl, loader := loader, entries := [] }

/-- Modelled from the spec: the raw entry lookup on the entry map. -/
def Cache.lookup {K V : Type} [DecidableEq K] (c : Cache K V) (k : K) :
    Option (CacheEntry V) :=
  (c.entries.find? (fun p => decide (p.1 = k))).map (fun p => p.2)

/-- Modelled from the spec: `Has(key)` is true iff a fresh entry exists
(one whose expiration lies strictly in the future; an entry expiring
exactly now is stale).  It never invokes the loader and never mutates
the cache. -/
def Cache.Has {K V : Type} [DecidableEq K] (c : Cache K V) (now : Nat) (k : K) : Bool :=
  match c.lookup k with
  | some e => decide (now < e.expiresAt)
  | none => false

/-- Modelled from the spec: `Store(key, value)` unconditionally inserts
or overwrites the entry for `key` with expiration `now + ttl`, bypassing
the loader. -/
def Cache.Store {K V : Type} [DecidableEq K] (c : Cache K V) (now : Nat) (k : K) (v : V) :
    Cache K V :=
  { c with entries :=
      (k, { value := v, expiresAt := now + c.ttl }) ::
        c.entries.filter (fun p => decide (¬ p.1 = k)) }

/-- Modelled from the spec: the miss/stale path of `Get`.  With no
loader it fails with `notFound`; with a loader it invokes it (the third
component records that the loader ran), stores a successful result with
a fresh expiration, and propagates a loader error leaving the entries
untouched. -/
def Cache.load {K V : Type} [DecidableEq K] (c : Cache K V) (now : Nat) (k : K) :
    Except Err V × Cache K V × Bool :=
  match c.loader with
  | none => (Except.error Err.notFound, c, false)
  | some f =>
    match f k with
    | Except.ok v => (Except.ok v, c.Store now k v, true)
    | Except.error e => (Except.error e, c, true)

/-- Modelled from the spec: `Get(key)` returns the fresh cached value if
present (loader not invoked); on miss or staleness it takes the load
path. -/
def Cache.Get {K V : Type} [DecidableEq K] (c : Cache K V) (now : Nat) (k : K) :
    Except Err V × Cache K V × Bool :=
  match c.lookup k with
  | some e =>
    if now < e.expiresAt then (Except.ok e.value, c, false) else c.load now k
  | none => c.load now k

/-- Nanoseconds in a minute: Go's `time.Minute`. -/
def minuteNs : Nat := 60000000000

/-- Nanoseconds in an hour: Go's `time.Hour`. -/
def hourNs : Nat := 3600000000000

/-- Nanoseconds in a day, used for Fauna's `TimeAdd(_, n, "days")`. -/
def nanosPerDay : Int := 86400000000000

/-- The remote Fauna store, abstracted as the results of the three
queries server.go issues, plus the instant `Now()` evaluates to when a
query runs.  `existsQ` is the combined result of the existence query at
the `all_emails` index and its boolean decode; `nameOf` the name lookup
and its decode; `fridaysRange` the `all_fridays_range` range query. -/
structure Remote where
  now : Int
  existsQ : String → Except Err Bool
  nameOf : String → Except Err String
  fridaysRange : Int × Int → Except Err (List Int)

/-- `GetFriendName` (server.go): query the `all_emails` index for the
friend's record and decode `data.name`. -/
def GetFriendName (r : Remote) (friendEmail : String) : Except Err String :=
  r.nameOf friendEmail

/-- Fauna's `TimeAdd(t, n, "days")` on integer nanosecond timestamps. -/
def timeAdd (t : Int) (n : Int) : Int := t + n * nanosPerDay

/-- The range bounds `GetUpcomingFridays` passes to `f.Range`: from
`f.Now()` to `f.TimeAdd(f.TimeAdd(f.Now(), 1, "days"), daysAhead,
"days")` (server.go lines 335-339). -/
def upcomingFridaysWindow (now : Int) (daysAhead : Int) : Int × Int :=
  (now, timeAdd (timeAdd now 1) daysAhead)

/-- `GetUpcomingFridays` (server.go): issue the range query at the
`all_fridays_range` index over `upcomingFridaysWindow`. -/
def GetUpcomingFridays (r : Remote) (daysAhead : Int) : Except Err (List Int) :=
  r.fridaysRange (upcomingFridaysWindow r.now daysAhead)

/-- Decimal digits of a natural as ASCII bytes, most significant first:
the body of Go's `strconv.Itoa`. -/
def natToDec (n : Nat) : List Nat :=
  if n = 0 then [48] else ((Nat.digits 10 n).map (fun d => d + 48)).reverse

/-- Go's `strconv.Itoa` on an integer, as ASCII bytes: an optional
leading minus sign (byte 45) followed by the decimal digits of the
magnitude. -/
def itoa (z : Int) : List Nat :=
  if z < 0 then 45 :: natToDec z.natAbs else natToDec z.toNat

/-- Accumulate a most-significant-first run of ASCII digit bytes into a
natural, as `strconv.ParseUint`'s loop does. -/
def decValue (s : List Nat) : Nat :=
  s.foldl (fun a b => 10 * a + (b - 48)) 0

/-- Whether a byte is an ASCII decimal digit. -/
def isDigitByte (b : Nat) : Bool := decide (48 ≤ b) && decide (b ≤ 57)

/-- Go's `strconv.ParseUint(s, 10, _)` without the width check (the
caller `parseInt32` applies the signed 32-bit cutoffs): `none` on an
empty string or any non-digit byte. -/
def parseUintDec (s : List Nat) : Option Nat :=
  if s.isEmpty then none
  else if s.all isDigitByte then some (decValue s) else none

/-- Go's `strconv.ParseInt(s, 10, 32)`: an optional sign byte (43 or
45), a nonempty digit run, and the signed 32-bit range checks (positive
values must be below 2^31, negated magnitudes at most 2^31); `none`
models the error return. -/
def parseInt32 (s : List Nat) : Option Int :=
  match s with
  | [] => none
  | c :: rest =>
    let signAndBody : Bool × List Nat :=
      if c = 43 then (false, rest)
      else if c = 45 then (true, rest)
      else (false, c :: rest)
    match parseUintDec signAndBody.2 with
    | none => none
    | some un =>
      if signAndBody.1 then
        if 2 ^ 31 < un then none else some (-(un : Int))
      else
        if 2 ^ 31 ≤ un then none else some (un : Int)

/-- `GetUpcomingFridaysStr` (server.go): parse the cache key with
`strconv.ParseInt(daysAhead, 10, 32)`; on error return it, otherwise
call `GetUpcomingFridays` on the parsed count. -/
def GetUpcomingFridaysStr (r : Remote) (daysAhead : List Nat) : Except Err (List Int) :=
  match parseInt32 daysAhead with
  | none => Except.error Err.parse
  | some d => GetUpcomingFridays r d

/-- The three package-level caches created by `newFaunaClient`
(server.go lines 236-244), as one record of explicit state. -/
structure FaunaClients where
  fridayCache : Cache (List Nat) (List Int)
  positiveFriendCache : Cache String String
  negativeFriendCache : Cache String Bool

/-- `newFaunaClient` (server.go): the Fridays cache with the
configurable TTL and `GetUpcomingFridaysStr` as loader, the positive
friend-name cache with a 24-hour TTL and `GetFriendName` as loader, and
the negative friend cache with a 5-minute TTL and no loader. -/
def newFaunaClient (r : Remote) (cacheTTL : Nat) : FaunaClients :=
  { fridayCache := NewCache cacheTTL (some (GetUpcomingFridaysStr r))
    positiveFriendCache := NewCache (24 * hourNs) (some (GetFriendName r))
    negativeFriendCache := NewCache (5 * minuteNs) none }

/-- `IsFriendAllowed` (server.go lines 246-269) with the package state
passed explicitly.  Returns the Go pair `(bool, error)`, the updated
caches, and the number of remote queries issued. -/
def IsFriendAllowed (r : Remote) (now : Nat) (st : FaunaClients) (friendEmail : String) :
    (Bool × Option Err) × FaunaClients × Nat :=
  if st.negativeFriendCache.Has now friendEmail then ((false, none), st, 0)
  else if st.positiveFriendCache.Has now friendEmail then ((true, none), st, 0)
  else
    match r.existsQ friendEmail with
    | Except.error e => ((false, some e), st, 1)
    | Except.ok ex =>
      if ex = false then
        ((false, none),
         { st with negativeFriendCache := st.negativeFriendCache.Store now friendEmail false },
         1)
      else ((true, none), st, 1)

/-- `GetCachedFridays` (server.go): look up the Fridays cache at the
decimal serialization of `daysAhead`. -/
def GetCachedFridays (now : Nat) (st : FaunaClients) (daysAhead : Int) :
    Except Err (List Int) × Cache (List Nat) (List Int) × Bool :=
  st.fridayCache.Get now (itoa daysAhead)

/-- How `HandleSubmit` disposes of a request after the allow check
(server.go lines 148-156). -/
inductive SubmitOutcome where
  | proceed
  | fail4xx
  | fail500
deriving DecidableEq

/-- The allow-check gate of `HandleSubmit`: when `IsFriendAllowed`
returns not-ok the request fails, with a 500 when an error accompanied
the result and a 4xx otherwise; only an ok result proceeds. -/
def handleSubmitAllowGate (res : Bool × Option Err) : SubmitOutcome :=
  if res.1 = false then
    (if res.2.isSome then SubmitOutcome.fail500 else SubmitOutcome.fail4xx)
  else SubmitOutcome.proceed

/-- Go's `time.Timer`, reduced to the instant its channel fires. -/
structure Timer where
  deadline : Nat
deriving DecidableEq

/-- `time.NewTimer(period)` evaluated at instant `now`. -/
def newTimer (now period : Nat) : Timer := { deadline := now + period }

/-- Receiving on the timer channel at instant `now`: blocks until the
deadline if it has not yet passed, returns immediately otherwise.  The
result is the instant at which the receive completes. -/
def timerRecv (t : Timer) (now : Nat) : Nat := max now t.deadline

/-- `timer.Reset(period)` executed at instant `now`. -/
def timerReset (now period : Nat) : Timer := { deadline := now + period }

/-- What the watch loop logs in one iteration. -/
inductive LogKind where
  | warn
  | debug
deriving DecidableEq

/-- The observable outcome of one iteration of `WatchCalendar`'s loop. -/
structure WatchStep where
  state : Nat × Timer
  caches : FaunaClients
  checkStart : Nat
  checkEnd : Nat
  resetAt : Nat
  log : LogKind
  continues : Bool

/-- One iteration of the `WatchCalendar` loop (server.go lines 61-69):
run `ListEvents(1)` (taking `lat` nanoseconds and succeeding iff
`probeOk`), log a warning on error and a debug line on success, receive
on the timer channel, reset the timer, and loop.  The caches are passed
through untouched — the body never reads or writes them — and every
iteration continues: the loop has no exit. -/
def watchIter (period : Nat) (probeOk : Bool) (lat : Nat) (s : Nat × Timer)
    (caches : FaunaClients) : WatchStep :=
  let start := s.1
  let checkEnd := start + lat
  let recv := timerRecv s.2 checkEnd
  { state := (recv, timerReset recv period)
    caches := caches
    checkStart := start
    checkEnd := checkEnd
    resetAt := recv
    log := if probeOk then LogKind.debug else LogKind.warn
    continues := true }

/-- The loop state of `WatchCalendar` before iteration `n`: the instant
the iteration's check starts and the live timer.  Iteration 0 starts
right after `time.NewTimer(period)` at instant 0. -/
def watchStates (period : Nat) (probe : Nat → Bool) (lat : Nat → Nat)
    (caches : FaunaClients) : Nat → Nat × Timer
  | 0 => (0, newTimer 0 period)
  | n + 1 =>
    (watchIter period (probe n) (lat n) (watchStates period probe lat caches n) caches).state

/-- A fixed remote store for concrete instantiations: every email
exists, names resolve, the Fridays query returns the empty list. -/
def remoteFix : Remote :=
  { now := 0
    existsQ := fun _ => Except.ok true
    nameOf := fun _ => Except.ok "name"
    fridaysRange := fun _ => Except.ok [] }

/-- A remote store whose existence check reports the email absent. -/
def remoteNegFix : Remote :=
  { remoteFix with existsQ := fun _ => Except.ok false }

/-- A remote store whose existence check fails. -/
def remoteErrFix : Remote :=
  { remoteFix with existsQ := fun _ => Except.error (Err.query "down") }

/-- Freshly constructed caches with a 1000ns Fridays TTL. -/
def stFix : FaunaClients := newFaunaClient remoteFix 1000

/-- Caches holding a negative membership entry for `"a"` stored at 0. -/
def stNegFix : FaunaClients :=
  { stFix with negativeFriendCache := stFix.negativeFriendCache.Store 0 "a" false }

/-- A small loader-less cache over string keys for concrete runs. -/
def cacheFix : Cache String Nat := { ttl := 1000, loader := none, entries := [] }

/-- Lookup immediately after a store finds the freshly written entry. -/
theorem cache_lookup_store {K V : Type} [DecidableEq K] (c : Cache K V) (now : Nat)
    (k : K) (v : V) :
    (c.Store now k v).lookup k = some { value := v, expiresAt := now + c.ttl } := by
  simp [Cache.Store, Cache.lookup, List.find?]

/-- C4: for all keys and values, immediately after `Store(k, v)` a
`Get(k)` at any instant before the TTL elapses returns `v` without
invoking the loader and leaves the cache unchanged; `Store` writes the
entry with expiration `now + ttl` unconditionally and independently of
the loader. -/
theorem store_get_contract {K V : Type} [DecidableEq K] (c : Cache K V) (k : K) (v : V)
    (now t : Nat) (_h1 : now ≤ t) (h2 : t < now + c.ttl) :
    (c.Store now k v).Get t k = (Except.ok v, c.Store now k v, false) ∧
    (c.Store now k v).lookup k = some { value := v, expiresAt := now + c.ttl } ∧
    (∀ ld : Option (K → Except Err V),
      ({ c with loader := ld } : Cache K V).Store now k v =
        { c.Store now k v with loader := ld }) := by
  have hl := cache_lookup_store c now k v
  refine ⟨?_, hl, fun ld => rfl⟩
  simp [Cache.Get, hl, h2]

/-- Witness for C4 at a concrete cache, key and instant. -/
theorem store_get_contract_w :
    (cacheFix.Store 5 "k" 7).Get 7 "k" = (Except.ok 7, cacheFix.Store 5 "k" 7, false) :=
  (store_get_contract cacheFix "k" 7 5 7 (by decide) (by decide)).1

/-- C5: `newFaunaClient` builds exactly the three caches of
`FaunaClients`: the Fridays cache with the configurable TTL and the
`GetUpcomingFridaysStr` loader, the positive friend-name cache with a
24-hour TTL and the `GetFriendName` loader, and the negative membership
cache with a 5-minute TTL and no loader, all starting empty. -/
theorem newFaunaClient_caches (r : Remote) (cacheTTL : Nat) :
    (newFaunaClient r cacheTTL).fridayCache =
      { ttl := cacheTTL, loader := some (GetUpcomingFridaysStr r), entries := [] } ∧
    (newFaunaClient r cacheTTL).positiveFriendCache =
      { ttl := 24 * hourNs, loader := some (GetFriendName r), entries := [] } ∧
    (newFaunaClient r cacheTTL).negativeFriendCache =
      { ttl := 5 * minuteNs, loader := none, entries := [] } :=
  ⟨rfl, rfl, rfl⟩

/-- C1: `IsFriendAllowed` consults the negative cache first (fresh hit:
`(false, nil)`, no remote call), then the positive cache via `Has`
(fresh hit: `(true, nil)`, no remote call, no state change), and only
when both miss does it issue exactly one remote existence query, whose
boolean result it returns on success. -/
theorem isFriendAllowed_order (r : Remote) (now : Nat) (st : FaunaClients) (k : String) :
    (st.negativeFriendCache.Has now k = true →
      IsFriendAllowed r now st k = ((false, none), st, 0)) ∧
    (st.negativeFriendCache.Has now k = false →
      st.positiveFriendCache.Has now k = true →
      IsFriendAllowed r now st k = ((true, none), st, 0)) ∧
    (st.negativeFriendCache.Has now k = false →
      st.positiveFriendCache.Has now k = false →
      (IsFriendAllowed r now st k).2.2 = 1 ∧
      ∀ b : Bool, r.existsQ k = Except.ok b →
        (IsFriendAllowed r now st k).1 = (b, none)) := by
  refine ⟨fun h => by simp [IsFriendAllowed, h], fun h1 h2 => by simp [IsFriendAllowed, h1, h2],
    fun h1 h2 => ⟨?_, ?_⟩⟩
  · cases hq : r.existsQ k with
    | error e => simp [IsFriendAllowed, h1, h2, hq]
    | ok ex => cases ex <;> simp [IsFriendAllowed, h1, h2, hq]
  · intro b hb
    cases b <;> simp [IsFriendAllowed, h1, h2, hb]

/-- Witness for C1: a fresh negative entry short-circuits the check. -/
theorem isFriendAllowed_order_w :
    IsFriendAllowed remoteFix 10 stNegFix "a" = ((false, none), stNegFix, 0) :=
  (isFriendAllowed_order remoteFix 10 stNegFix "a").1 (by decide)

/-- C2: when both caches miss and the remote check reports the email
absent, `IsFriendAllowed` stores `(k, false)` in the negative cache
(whose TTL is 5 minutes) and returns `(false, nil)` after one remote
call; a repeated call within 5 minutes of the store returns
`(false, nil)` with no remote call; and on every input the positive
cache is left untouched. -/
theorem isFriendAllowed_negative_store (r : Remote) (now : Nat) (st : FaunaClients) (k : String)
    (hn : st.negativeFriendCache.Has now k = false)
    (hp : st.positiveFriendCache.Has now k = false)
    (hq : r.existsQ k = Except.ok false)
    (ht : st.negativeFriendCache.ttl = 5 * minuteNs) :
    IsFriendAllowed r now st k =
      ((false, none),
        { st with negativeFriendCache := st.negativeFriendCache.Store now k false }, 1) ∧
    (∀ (r2 : Remote) (t : Nat), now ≤ t → t < now + 5 * minuteNs →
      IsFriendAllowed r2 t
          { st with negativeFriendCache := st.negativeFriendCache.Store now k false } k =
        ((false, none),
          { st with negativeFriendCache := st.negativeFriendCache.Store now k false }, 0)) ∧
    (∀ (r3 : Remote) (n3 : Nat) (s3 : FaunaClients) (k3 : String),
      ((IsFriendAllowed r3 n3 s3 k3).2.1).positiveFriendCache = s3.positiveFriendCache) := by
  refine ⟨by simp [IsFriendAllowed, hn, hp, hq], ?_, ?_⟩
  · intro r2 t ht1 ht2
    have hhas :
        ({ st with negativeFriendCache := st.negativeFriendCache.Store now k false }
          : FaunaClients).negativeFriendCache.Has t k = true := by
      simp [Cache.Has, cache_lookup_store]
      omega
    simp [IsFriendAllowed, hhas]
  · intro r3 n3 s3 k3
    cases hneg : s3.negativeFriendCache.Has n3 k3
    · cases hpos : s3.positiveFriendCache.Has n3 k3
      · cases hq3 : r3.existsQ k3 with
        | error e => simp [IsFriendAllowed, hneg, hpos, hq3]
        | ok ex => cases ex <;> simp [IsFriendAllowed, hneg, hpos, hq3]
      · simp [IsFriendAllowed, hneg, hpos]
    · simp [IsFriendAllowed, hneg]

/-- Witness for C2 at a concrete remote, caches and key. -/
theorem isFriendAllowed_negative_store_w :
    IsFriendAllowed remoteNegFix 0 stFix "a" =
      ((false, none),
        { stFix with negativeFriendCache := stFix.negativeFriendCache.Store 0 "a" false }, 1) :=
  (isFriendAllowed_negative_store remoteNegFix 0 stFix "a" rfl rfl rfl rfl).1

/-- C3: when the remote existence check fails, `IsFriendAllowed`
returns the error together with `false` and leaves the whole cache
state untouched after exactly one remote call; it never returns `true`
together with a non-nil error on any input; and `HandleSubmit` turns
such an error result into a failed (500) request. -/
theorem isFriendAllowed_error_failclosed (r : Remote) (now : Nat) (st : FaunaClients)
    (k : String) (e : Err)
    (hn : st.negativeFriendCache.Has now k = false)
    (hp : st.positiveFriendCache.Has now k = false)
    (hq : r.existsQ k = Except.error e) :
    IsFriendAllowed r now st k = ((false, some e), st, 1) ∧
    handleSubmitAllowGate (IsFriendAllowed r now st k).1 = SubmitOutcome.fail500 ∧
    (∀ (r4 : Remote) (n4 : Nat) (s4 : FaunaClients) (k4 : String) (e4 : Err),
      (IsFriendAllowed r4 n4 s4 k4).1 ≠ (true, some e4)) := by
  have h1 : IsFriendAllowed r now st k = ((false, some e), st, 1) := by
    simp [IsFriendAllowed, hn, hp, hq]
  refine ⟨h1, by rw [h1]; rfl, ?_⟩
  intro r4 n4 s4 k4 e4
  cases hneg : s4.negativeFriendCache.Has n4 k4
  · cases hpos : s4.positiveFriendCache.Has n4 k4
    · cases hq4 : r4.existsQ k4 with
      | error e5 => simp [IsFriendAllowed, hneg, hpos, hq4]
      | ok ex => cases ex <;> simp [IsFriendAllowed, hneg, hpos, hq4]
    · simp [IsFriendAllowed, hneg, hpos]
  · simp [IsFriendAllowed, hneg]

/-- Witness for C3 at a concrete failing remote. -/
theorem isFriendAllowed_error_failclosed_w :
    IsFriendAllowed remoteErrFix 0 stFix "a" = ((false, some (Err.query "down")), stFix, 1) :=
  (isFriendAllowed_error_failclosed remoteErrFix 0 stFix "a" (Err.query "down") rfl rfl rfl).1

/-- C8: every iteration of the `WatchCalendar` loop continues (the loop
has no exit and runs until process exit), a failing probe only produces
a warning log while a passing one logs at debug level, and the caches
are neither changed nor consulted: the iteration returns them untouched
and its state and log are identical for any cache contents. -/
theorem watch_loop_nonfatal (period : Nat) (probeOk : Bool) (lat : Nat) (s : Nat × Timer)
    (caches : FaunaClients) :
    (watchIter period probeOk lat s caches).continues = true ∧
    (watchIter period probeOk lat s caches).caches = caches ∧
    (watchIter period probeOk lat s caches).log =
      (if probeOk then LogKind.debug else LogKind.warn) ∧
    (∀ caches2 : FaunaClients,
      (watchIter period probeOk lat s caches2).state =
        (watchIter period probeOk lat s caches).state ∧
      (watchIter period probeOk lat s caches2).log =
        (watchIter period probeOk lat s caches).log) :=
  ⟨rfl, rfl, rfl, fun _ => ⟨rfl, rfl⟩⟩

/-- The live timer always fires exactly one period after the current
iteration's check started: it was reset just before the check began. -/
theorem watchStates_deadline (period : Nat) (probe : Nat → Bool) (lat : Nat → Nat)
    (caches : FaunaClients) (n : Nat) :
    (watchStates period probe lat caches n).2.deadline =
      (watchStates period probe lat caches n).1 + period := by
  cases n with
  | zero => rfl
  | succ m => rfl

/-- C7 (amended): the timer reset does occur only after the check of the
iteration completes, but the timer counts down concurrently with the
check (it was reset before the check began), so the interval between the
starts of two consecutive checks is `max period latency` — the
configured period unless the check outlasts it — not period plus
latency. -/
theorem watch_check_interval (period : Nat) (probe : Nat → Bool) (lat : Nat → Nat)
    (caches : FaunaClients) (n : Nat) :
    (watchStates period probe lat caches (n + 1)).1 =
      (watchStates period probe lat caches n).1 + max period (lat n) ∧
    (watchIter period (probe n) (lat n) (watchStates period probe lat caches n)
        caches).checkEnd ≤
      (watchIter period (probe n) (lat n) (watchStates period probe lat caches n)
        caches).resetAt := by
  have hd := watchStates_deadline period probe lat caches n
  constructor
  · show (watchIter period (probe n) (lat n) (watchStates period probe lat caches n)
      caches).state.1 = _
    simp only [watchIter, timerRecv, timerReset]
    rw [hd]
    omega
  · simp only [watchIter, timerRecv]
    omega

/-- C7 counterexample: with a 10ns period and a 3ns check latency the
second check starts 10ns after the first, not 13ns as the claim's
period-plus-latency reading would require. -/
theorem watch_check_interval_cex :
    (watchStates 10 (fun _ => true) (fun _ => 3) stFix 1).1 ≠
      (watchStates 10 (fun _ => true) (fun _ => 3) stFix 0).1 + 10 + 3 := by decide

/-- C6 (amended): the range `GetUpcomingFridays` queries starts at the
current time `Now()` itself — not one day after it — and ends
`1 + daysAhead` days after the current time. -/
theorem upcomingFridays_window_amended (r : Remote) (d : Int) :
    GetUpcomingFridays r d = r.fridaysRange (r.now, r.now + (1 + d) * nanosPerDay) := by
  have h : timeAdd (timeAdd r.now 1) d = r.now + (1 + d) * nanosPerDay := by
    unfold timeAdd; ring
  unfold GetUpcomingFridays upcomingFridaysWindow
  rw [h]

/-- C6 counterexample: at `now = 0` with `daysAhead = 30` the lower
bound of the queried window is `0`, not `TimeAdd(now, 1, "days")` as the
claim states. -/
theorem upcomingFridays_window_cex :
    (upcomingFridaysWindow 0 30).1 ≠ timeAdd 0 1 := by decide

/-- Folding the decimal-accumulation step over a reversed little-endian
digit list recovers the number the digits denote. -/
theorem foldl_decdigits (l : List Nat) (a : Nat) :
    List.foldl (fun x d => 10 * x + d) a l.reverse = a * 10 ^ l.length + Nat.ofDigits 10 l := by
  induction l generalizing a with
  | nil => simp
  | cons d t ih =>
    simp only [List.reverse_cons, List.foldl_append, List.foldl_cons, List.foldl_nil, ih,
      Nat.ofDigits_cons, List.length_cons, pow_succ]
    ring

/-- The accumulation loop of the parser inverts `natToDec`. -/
theorem decValue_natToDec (n : Nat) : decValue (natToDec n) = n := by
  by_cases h : n = 0
  · subst h; rfl
  · unfold natToDec decValue
    rw [if_neg h, ← List.map_reverse, List.foldl_map]
    simp only [Nat.add_sub_cancel]
    rw [foldl_decdigits]
    simp [Nat.ofDigits_digits]

/-- Every byte of `natToDec n` is an ASCII decimal digit. -/
theorem natToDec_digits (n : Nat) : ∀ b ∈ natToDec n, 48 ≤ b ∧ b ≤ 57 := by
  intro b hb
  unfold natToDec at hb
  by_cases h : n = 0
  · rw [if_pos h] at hb
    simp only [List.mem_singleton] at hb
    omega
  · rw [if_neg h, List.mem_reverse, List.mem_map] at hb
    obtain ⟨d, hd, rfl⟩ := hb
    have : d < 10 := Nat.digits_lt_base (by norm_num) hd
    omega

/-- `natToDec` never produces the empty byte string. -/
theorem natToDec_ne_nil (n : Nat) : natToDec n ≠ [] := by
  unfold natToDec
  by_cases h : n = 0
  · simp [h]
  · rw [if_neg h]
    simp [Nat.digits_ne_nil_iff_ne_zero, h]

/-- The unsigned decimal parser inverts `natToDec`. -/
theorem parseUintDec_natToDec (n : Nat) : parseUintDec (natToDec n) = some n := by
  have h1 : (natToDec n).isEmpty = false := by
    cases hnd : natToDec n with
    | nil => exact absurd hnd (natToDec_ne_nil n)
    | cons c t => rfl
  have h2 : (natToDec n).all isDigitByte = true := by
    rw [List.all_eq_true]
    intro b hb
    have := natToDec_digits n b hb
    simp only [isDigitByte, Bool.and_eq_true, decide_eq_true_eq]
    omega
  simp [parseUintDec, h1, h2, decValue_natToDec]

/-- C10: for every `daysAhead` in signed 32-bit range, the decimal key
`GetCachedFridays` passes to the Fridays cache parses back (via
`strconv.ParseInt(_, 10, 32)` in `GetUpcomingFridaysStr`) to the exact
same integer, so the loader's parse-error branch is unreachable for
cache-produced keys and the loader computes `GetUpcomingFridays` at the
original argument. -/
theorem fridayKey_roundtrip (r : Remote) (d : Int)
    (hlo : -(2 ^ 31) ≤ d) (hhi : d < 2 ^ 31) :
    parseInt32 (itoa d) = some d ∧
    GetUpcomingFridaysStr r (itoa d) = GetUpcomingFridays r d ∧
    (∀ (now : Nat) (st : FaunaClients),
      GetCachedFridays now st d = st.fridayCache.Get now (itoa d)) := by
  have hp : parseInt32 (itoa d) = some d := by
    by_cases hneg : d < 0
    · rw [itoa, if_pos hneg]
      have hr : ¬ ((2 : Nat) ^ 31 < d.natAbs) := by omega
      have hv : -((d.natAbs : Nat) : Int) = d := by omega
      simp [parseInt32, parseUintDec_natToDec, hr, hv]
      exact ⟨by omega, by rw [abs_of_neg hneg]; exact neg_neg d⟩
    · rw [itoa, if_neg hneg]
      obtain ⟨c, t, hct⟩ := List.exists_cons_of_ne_nil (natToDec_ne_nil d.toNat)
      have hc : 48 ≤ c ∧ c ≤ 57 :=
        natToDec_digits d.toNat c (hct ▸ List.mem_cons_self c t)
      rw [hct]
      have h43 : ¬ (c = 43) := by omega
      have h45 : ¬ (c = 45) := by omega
      have hr : ¬ ((2 : Nat) ^ 31 ≤ d.toNat) := by omega
      have hv : ((d.toNat : Nat) : Int) = d := Int.toNat_of_nonneg (by omega)
      simp only [parseInt32, if_neg h43, if_neg h45]
      rw [← hct, parseUintDec_natToDec]
      simp [hr, hv]
      omega
  refine ⟨hp, ?_, fun now st => rfl⟩
  unfold GetUpcomingFridaysStr
  rw [hp]

/-- Witness for C10 at `daysAhead = -37`. -/
theorem fridayKey_roundtrip_w : parseInt32 (itoa (-37)) = some (-37) :=
  (fridayKey_roundtrip remoteFix (-37) (by decide) (by decide)).1
